import Mathlib

/-!
Shallow embedding of `mergechallan.py` (function `merge_pdfs_logic`), the
matching-and-merge pipeline of the mergepdf utility.

The pipeline is pure apart from filesystem and PDF-library effects, which we
model explicitly:

* the spreadsheet is a `Sheet` (raw headers plus rows of string cells, as
  produced by `str()` on each pandas cell);
* directory listings and file existence are fields of an `Env`;
* the PDF library and output writes may fail; failures are modelled by
  oracles `certAppendErr`, `challanAppendErr`, `writeErr` mapping a path to
  `none` (success) or `some e` (the raised error message `e`);
* log output is a list of structured `Event`s carrying the same data the
  source interpolates into its log strings;
* written files are a list of `(path, content)` writes in order, where a
  content is the ordered list of source-document paths appended by the
  `PdfWriter`; the file visible at a path after a run is the last write.
-/

/-- One loaded spreadsheet: raw column headers and rows of string cells
(cell `j` of a row corresponds to header `j`). -/
structure Sheet where
  headers : List String
  rows : List (List String)
deriving DecidableEq

/-- Outcome of `pd.read_excel` at line 73: missing file, any other read
failure, or a loaded sheet. -/
inductive LoadResult where
  | notFound : LoadResult
  | readError : String → LoadResult
  | ok : Sheet → LoadResult

/-- Structured log events, one constructor per `logging.*` call site of
`merge_pdfs_logic`, carrying the data the source interpolates. -/
inductive Event where
  | infoStart : Event
  | errorExcelMissing : Event
  | errorExcelRead : String → Event
  | errorSchema : String → String → List String → Event
  | infoLoaded : Event
  | infoFoundCerts : Nat → Event
  | infoProcessing : String → Event
  | warnNoMapping : String → Event
  | infoAddedCert : String → Event
  | infoAddedChallan : String → Event
  | warnChallanAppendFailed : String → String → Event
  | warnChallanMissing : String → Event
  | infoCreated : String → Event
  | errorPerson : String → String → Event
  | infoSummary : Nat → Nat → Event
deriving DecidableEq

/-- Observable state accumulated by a run: the event log, the sequence of
file writes `(output path, appended source paths)`, and the
`processed_files` counter. -/
structure BatchState where
  events : List Event
  writes : List (String × List String)
  processed : Nat
deriving DecidableEq

/-- The environment a run executes in: the four paths passed to
`merge_pdfs_logic`, the result of reading the Excel file, the certificate
directory listing (in `os.listdir` order), the set of filenames present in
the challan directory, and the three failure oracles. -/
structure Env where
  certDir : String
  challanDir : String
  outputDir : String
  load : LoadResult
  certListing : List String
  challanFiles : List String
  certAppendErr : String → Option String
  challanAppendErr : String → Option String
  writeErr : String → Option String

/-- Python `str.strip()`: remove surrounding whitespace. -/
def strip (s : String) : String :=
  String.mk (((s.toList.dropWhile Char.isWhitespace).reverse.dropWhile
    Char.isWhitespace).reverse)

/-- Index of the last `.` in a character list, if any. -/
def lastDotIdx (cs : List Char) : Option Nat :=
  ((List.range cs.length).filter (fun i => cs.getD i ' ' = '.')).getLast?

/-- Python `os.path.splitext(p)[0]` for a bare filename: everything before
the last dot, except that a run of leading dots never starts an extension. -/
def splitextBase (p : String) : String :=
  let cs := p.toList
  match lastDotIdx cs with
  | none => p
  | some i =>
    if (List.range i).any (fun j => cs.getD j ' ' ≠ '.') then
      String.mk (cs.take i)
    else p

/-- The filter `f.lower().endswith(".pdf")` of line 93. -/
def endsWithPdf (f : String) : Bool :=
  (f.toList.map Char.toLower).reverse.take 4 == ['f', 'd', 'p', '.']

/-- `os.path.join` for a directory and a bare filename. -/
def joinPath (d f : String) : String := d ++ "/" ++ f

/-- The required employee-name header (line 75). -/
def employeeColName : String := "Employee Name"

/-- The required challan-number header (line 76). -/
def challanColName : String := "Challan Number"

/-- Line 74: every column header stripped of surrounding whitespace. -/
def trimmedHeaders (s : Sheet) : List String := s.headers.map strip

/-- The schema check of line 78: both required headers present among the
trimmed headers. -/
def schemaOk (s : Sheet) : Bool :=
  (trimmedHeaders s).contains employeeColName &&
    (trimmedHeaders s).contains challanColName

/-- Index of the first column whose trimmed header matches `target`
(pandas column selection by name). -/
def colIdx (target : String) (s : Sheet) : Nat :=
  (trimmedHeaders s).findIdx (fun h => h == target)

/-- The employee-name cell of a row. -/
def empCell (s : Sheet) (row : List String) : String :=
  row.getD (colIdx employeeColName s) ""

/-- The challan-number cell of a row. -/
def chCell (s : Sheet) (row : List String) : String :=
  row.getD (colIdx challanColName s) ""

/-- Line 101: the rows whose stripped employee cell equals the stripped
lookup name (exact, case-sensitive comparison). -/
def matchingRows (s : Sheet) (name : String) : List (List String) :=
  s.rows.filter (fun r => strip (empCell s r) == strip name)

/-- The receipt ids for a person: the stripped challan cell of each matching
row, in spreadsheet row order (lines 101, 113–114). -/
def receiptsFor (s : Sheet) (name : String) : List String :=
  (matchingRows s name).map (fun r => strip (chCell s r))

/-- Line 115: the expected challan filename for a receipt id. -/
def challanFilename (challanNum : String) : String := challanNum ++ ".pdf"

/-- Line 93: the work list — certificate-directory entries whose lowercased
name ends in `.pdf`, in listing order. -/
def certPdfs (env : Env) : List String :=
  env.certListing.filter endsWithPdf

/-- The body of the challan loop (lines 113–125) acting on the accumulated
`(events, appended documents)` pair for one receipt id. -/
def challanStep (env : Env) (acc : List Event × List String)
    (challanNum : String) : List Event × List String :=
  let fname := challanFilename challanNum
  let cpath := joinPath env.challanDir fname
  if env.challanFiles.contains fname then
    match env.challanAppendErr cpath with
    | none => (acc.1 ++ [Event.infoAddedChallan fname], acc.2 ++ [cpath])
    | some e => (acc.1 ++ [Event.warnChallanAppendFailed cpath e], acc.2)
  else
    (acc.1 ++ [Event.warnChallanMissing cpath], acc.2)

/-- One iteration of the certificate loop (lines 96–138): look up the
person, skip on no mapping, otherwise append the certificate, run the
challan loop, and write the combined file; the `certAppendErr` and
`writeErr` branches are the exceptions caught at line 136. -/
def processCert (env : Env) (sheet : Sheet) (st : BatchState)
    (certFilename : String) : BatchState :=
  let employeeName := splitextBase certFilename
  let st0 : BatchState :=
    { st with events := st.events ++ [Event.infoProcessing employeeName] }
  let challans := receiptsFor sheet employeeName
  if challans.isEmpty then
    { st0 with events := st0.events ++ [Event.warnNoMapping employeeName] }
  else
    let certPath := joinPath env.certDir certFilename
    match env.certAppendErr certPath with
    | some e =>
      { st0 with events := st0.events ++ [Event.errorPerson employeeName e] }
    | none =>
      let r := challans.foldl (challanStep env)
        (st0.events ++ [Event.infoAddedCert certFilename], [certPath])
      let outputPath := joinPath env.outputDir (employeeName ++ "_combined.pdf")
      match env.writeErr outputPath with
      | some e =>
        { events := r.1 ++ [Event.errorPerson employeeName e],
          writes := st0.writes, processed := st0.processed }
      | none =>
        { events := r.1 ++ [Event.infoCreated outputPath],
          writes := st0.writes ++ [(outputPath, r.2)],
          processed := st0.processed + 1 }

/-- The whole of `merge_pdfs_logic` (lines 62–141): load and validate the
spreadsheet (terminal on failure), then fold the certificate loop over the
work list and emit the final summary. -/
def mergePdfsLogic (env : Env) : BatchState :=
  match env.load with
  | LoadResult.notFound =>
    { events := [Event.infoStart, Event.errorExcelMissing],
      writes := [], processed := 0 }
  | LoadResult.readError e =>
    { events := [Event.infoStart, Event.errorExcelRead e],
      writes := [], processed := 0 }
  | LoadResult.ok sheet =>
    if schemaOk sheet then
      let certs := certPdfs env
      let init : BatchState :=
        { events := [Event.infoStart, Event.infoLoaded,
            Event.infoFoundCerts certs.length],
          writes := [], processed := 0 }
      let final := certs.foldl (processCert env sheet) init
      { final with events :=
          final.events ++ [Event.infoSummary final.processed certs.length] }
    else
      { events := [Event.infoStart,
          Event.errorSchema employeeColName challanColName
            (trimmedHeaders sheet)],
        writes := [], processed := 0 }

/-- The file content visible at `p` after a sequence of writes: the content
of the last write to `p`, since each write truncates and overwrites. -/
def finalContent (ws : List (String × List String)) (p : String) :
    Option (List String) :=
  ((ws.filter (fun w => w.1 == p)).getLast?).map (fun w => w.2)

/-! ### Per-certificate decomposition

`processCert` only ever appends to the event log and write log and adds to
the counter, so each certificate contributes a delta independent of the
accumulated state.  The deltas are computed by `certEvents` and
`certWrites` below, and `processCert_eq` proves the decomposition. -/

/-- Events contributed by one receipt id in the challan loop. -/
def challanEvents (env : Env) (challanNum : String) : List Event :=
  let fname := challanFilename challanNum
  let cpath := joinPath env.challanDir fname
  if env.challanFiles.contains fname then
    match env.challanAppendErr cpath with
    | none => [Event.infoAddedChallan fname]
    | some e => [Event.warnChallanAppendFailed cpath e]
  else
    [Event.warnChallanMissing cpath]

/-- Documents contributed by one receipt id in the challan loop. -/
def challanDocs (env : Env) (challanNum : String) : List String :=
  let fname := challanFilename challanNum
  let cpath := joinPath env.challanDir fname
  if env.challanFiles.contains fname then
    match env.challanAppendErr cpath with
    | none => [cpath]
    | some _ => []
  else
    []

/-- Events appended to the log by one iteration of the certificate loop. -/
def certEvents (env : Env) (sheet : Sheet) (certFilename : String) :
    List Event :=
  let employeeName := splitextBase certFilename
  let challans := receiptsFor sheet employeeName
  Event.infoProcessing employeeName ::
    (if challans.isEmpty then [Event.warnNoMapping employeeName]
     else
       match env.certAppendErr (joinPath env.certDir certFilename) with
       | some e => [Event.errorPerson employeeName e]
       | none =>
         let mids := Event.infoAddedCert certFilename ::
           (challans.map (challanEvents env)).flatten
         let outputPath :=
           joinPath env.outputDir (employeeName ++ "_combined.pdf")
         match env.writeErr outputPath with
         | some e => mids ++ [Event.errorPerson employeeName e]
         | none => mids ++ [Event.infoCreated outputPath])

/-- Writes performed by one iteration of the certificate loop (at most
one). -/
def certWrites (env : Env) (sheet : Sheet) (certFilename : String) :
    List (String × List String) :=
  let employeeName := splitextBase certFilename
  let challans := receiptsFor sheet employeeName
  if challans.isEmpty then []
  else
    let certPath := joinPath env.certDir certFilename
    match env.certAppendErr certPath with
    | some _ => []
    | none =>
      let outputPath :=
        joinPath env.outputDir (employeeName ++ "_combined.pdf")
      match env.writeErr outputPath with
      | some _ => []
      | none =>
        [(outputPath, certPath :: (challans.map (challanDocs env)).flatten)]

theorem challanStep_eq (env : Env) (acc : List Event × List String)
    (c : String) :
    challanStep env acc c =
      (acc.1 ++ challanEvents env c, acc.2 ++ challanDocs env c) := by
  unfold challanStep challanEvents challanDocs
  by_cases h : challanFilename c ∈ env.challanFiles
  · cases h2 : env.challanAppendErr (joinPath env.challanDir (challanFilename c)) <;>
      simp [h, h2]
  · simp [h]

theorem foldl_challanStep (env : Env) (cs : List String) (evs : List Event)
    (docs : List String) :
    cs.foldl (challanStep env) (evs, docs) =
      (evs ++ (cs.map (challanEvents env)).flatten,
       docs ++ (cs.map (challanDocs env)).flatten) := by
  induction cs generalizing evs docs with
  | nil => simp
  | cons c cs ih =>
    simp only [List.foldl_cons, challanStep_eq, ih, List.map_cons,
      List.flatten_cons, List.append_assoc]

theorem processCert_eq (env : Env) (sheet : Sheet) (st : BatchState)
    (f : String) :
    processCert env sheet st f =
      { events := st.events ++ certEvents env sheet f,
        writes := st.writes ++ certWrites env sheet f,
        processed := st.processed + (certWrites env sheet f).length } := by
  unfold processCert certEvents certWrites
  by_cases h : (receiptsFor sheet (splitextBase f)).isEmpty
  · simp [h]
  · simp only [h, if_false, Bool.false_eq_true]
    cases env.certAppendErr (joinPath env.certDir f) with
    | some e => simp
    | none =>
      simp only [foldl_challanStep]
      cases env.writeErr
          (joinPath env.outputDir (splitextBase f ++ "_combined.pdf")) with
      | some e => simp
      | none => simp

theorem foldl_processCert (env : Env) (sheet : Sheet) (cs : List String)
    (st : BatchState) :
    cs.foldl (processCert env sheet) st =
      { events := st.events ++ (cs.map (certEvents env sheet)).flatten,
        writes := st.writes ++ (cs.map (certWrites env sheet)).flatten,
        processed := st.processed +
          (cs.map (fun f => (certWrites env sheet f).length)).sum } := by
  induction cs generalizing st with
  | nil => simp
  | cons c cs ih =>
    simp only [List.foldl_cons, processCert_eq, ih, List.map_cons,
      List.flatten_cons, List.append_assoc, List.sum_cons, Nat.add_assoc]

/-- Closed form of a run whose spreadsheet loads with a valid schema. -/
theorem mergePdfsLogic_ok (env : Env) (sheet : Sheet)
    (hload : env.load = LoadResult.ok sheet)
    (hschema : schemaOk sheet = true) :
    mergePdfsLogic env =
      { events := [Event.infoStart, Event.infoLoaded,
            Event.infoFoundCerts (certPdfs env).length] ++
          ((certPdfs env).map (certEvents env sheet)).flatten ++
          [Event.infoSummary
            ((certPdfs env).map
              (fun f => (certWrites env sheet f).length)).sum
            (certPdfs env).length],
        writes := ((certPdfs env).map (certWrites env sheet)).flatten,
        processed := ((certPdfs env).map
          (fun f => (certWrites env sheet f).length)).sum } := by
  unfold mergePdfsLogic
  rw [hload]
  simp only [hschema, if_true, foldl_processCert]
  simp

/-! ### Supporting lemmas -/

theorem certWrites_length_le (env : Env) (sheet : Sheet) (f : String) :
    (certWrites env sheet f).length ≤ 1 := by
  unfold certWrites
  by_cases h : (receiptsFor sheet (splitextBase f)).isEmpty
  · simp [h]
  · simp only [h, if_false, Bool.false_eq_true]
    cases env.certAppendErr (joinPath env.certDir f) with
    | some e => simp
    | none =>
      cases env.writeErr
          (joinPath env.outputDir (splitextBase f ++ "_combined.pdf")) with
      | some e => simp
      | none => simp

theorem sum_le_length (l : List Nat) (h : ∀ x ∈ l, x ≤ 1) :
    l.sum ≤ l.length := by
  induction l with
  | nil => simp
  | cons x l ih =>
    simp only [List.sum_cons, List.length_cons]
    have hx := h x (List.mem_cons_self x l)
    have hl := ih (fun y hy => h y (List.mem_cons_of_mem x hy))
    omega

theorem flatten_writes_length (env : Env) (sheet : Sheet)
    (l : List String) :
    ((l.map (certWrites env sheet)).flatten).length =
      (l.map (fun f => (certWrites env sheet f).length)).sum := by
  simp only [List.length_flatten, List.map_map]
  rfl

theorem challanDocs_flatten (env : Env) (cs : List String)
    (happ : ∀ p, env.challanAppendErr p = none) :
    (cs.map (challanDocs env)).flatten =
      (cs.filter (fun c => env.challanFiles.contains (challanFilename c))).map
        (fun c => joinPath env.challanDir (challanFilename c)) := by
  induction cs with
  | nil => rfl
  | cons c cs ih =>
    by_cases h : challanFilename c ∈ env.challanFiles
    · simp [challanDocs, happ, h, List.filter_cons, ih]
    · simp [challanDocs, happ, h, List.filter_cons, ih]

theorem challanEvents_all_missing (env : Env) (cs : List String)
    (h : ∀ c ∈ cs, challanFilename c ∉ env.challanFiles) :
    (cs.map (challanEvents env)).flatten =
      cs.map (fun c =>
        Event.warnChallanMissing (joinPath env.challanDir (challanFilename c))) := by
  induction cs with
  | nil => rfl
  | cons c cs ih =>
    have h1 := h c (List.mem_cons_self c cs)
    have h2 : ∀ x ∈ cs, challanFilename x ∉ env.challanFiles :=
      fun x hx => h x (List.mem_cons_of_mem c hx)
    simp [challanEvents, h1, ih h2]

theorem challanDocs_all_missing (env : Env) (cs : List String)
    (h : ∀ c ∈ cs, challanFilename c ∉ env.challanFiles) :
    (cs.map (challanDocs env)).flatten = [] := by
  induction cs with
  | nil => rfl
  | cons c cs ih =>
    have h1 := h c (List.mem_cons_self c cs)
    have h2 : ∀ x ∈ cs, challanFilename x ∉ env.challanFiles :=
      fun x hx => h x (List.mem_cons_of_mem c hx)
    simp [challanDocs, h1, ih h2]

theorem finalContent_append_write (ws : List (String × List String))
    (p : String) (v : List String) :
    finalContent (ws ++ [(p, v)]) p = some v := by
  unfold finalContent
  rw [List.filter_append]
  simp [List.getLast?_concat]

theorem certWrites_of_success (env : Env) (sheet : Sheet) (f : String)
    (hne : receiptsFor sheet (splitextBase f) ≠ [])
    (hcert : env.certAppendErr (joinPath env.certDir f) = none)
    (hw : env.writeErr
      (joinPath env.outputDir (splitextBase f ++ "_combined.pdf")) = none) :
    certWrites env sheet f =
      [(joinPath env.outputDir (splitextBase f ++ "_combined.pdf"),
        joinPath env.certDir f ::
          ((receiptsFor sheet (splitextBase f)).map (challanDocs env)).flatten)] := by
  unfold certWrites
  simp [hne, hcert, hw]

theorem certEvents_of_success (env : Env) (sheet : Sheet) (f : String)
    (hne : receiptsFor sheet (splitextBase f) ≠ [])
    (hcert : env.certAppendErr (joinPath env.certDir f) = none)
    (hw : env.writeErr
      (joinPath env.outputDir (splitextBase f ++ "_combined.pdf")) = none) :
    certEvents env sheet f =
      Event.infoProcessing (splitextBase f) :: Event.infoAddedCert f ::
        ((receiptsFor sheet (splitextBase f)).map (challanEvents env)).flatten ++
        [Event.infoCreated
          (joinPath env.outputDir (splitextBase f ++ "_combined.pdf"))] := by
  unfold certEvents
  simp [hne, hcert, hw]

/-! ### Spec-side definition for the lookup (refinement target for C1) -/

/-- Modelled from the spec: the lookup returns, for each spreadsheet row in
order whose trimmed person name equals the given trimmed name under exact
case-sensitive comparison, that row's trimmed receipt id; the empty
sequence if no row matches. -/
def specReceiptsFor (s : Sheet) (name : String) : List String :=
  s.rows.foldr
    (fun r acc =>
      if strip (empCell s r) = strip name then strip (chCell s r) :: acc
      else acc) []

/-! ### Concrete fixtures used by the witnesses -/

/-- A valid one-row sheet mapping Alice to challan 101. -/
def sheetA : Sheet :=
  { headers := ["Employee Name", "Challan Number"],
    rows := [["Alice", "101"]] }

/-- An environment where Alice has a certificate and challan 101 exists. -/
def envA : Env :=
  { certDir := "c", challanDir := "r", outputDir := "o",
    load := LoadResult.ok sheetA,
    certListing := ["Alice.pdf"],
    challanFiles := ["101.pdf"],
    certAppendErr := fun _ => none,
    challanAppendErr := fun _ => none,
    writeErr := fun _ => none }

/-- Like `envA` but the challan directory is empty. -/
def envB : Env :=
  { certDir := "c", challanDir := "r", outputDir := "o",
    load := LoadResult.ok sheetA,
    certListing := ["Alice.pdf"],
    challanFiles := [],
    certAppendErr := fun _ => none,
    challanAppendErr := fun _ => none,
    writeErr := fun _ => none }

/-- A sheet missing the required challan-number header. -/
def sheetBad : Sheet :=
  { headers := ["Employee Name", "Amount"],
    rows := [["Alice", "5"]] }

/-- An environment whose spreadsheet fails the schema check. -/
def envBad : Env :=
  { envA with load := LoadResult.ok sheetBad }

/-! ### Claims -/

/-- Claim C1: for every valid spreadsheet, the lookup returns, per matching
row in spreadsheet row order, exactly the trimmed challan-number values of
the rows whose trimmed employee name equals the trimmed lookup name under
exact case-sensitive comparison, and the empty sequence (not an error) when
no row matches. -/
theorem receiptsFor_row_order (s : Sheet) (name : String) :
    receiptsFor s name = specReceiptsFor s name ∧
      ((∀ r ∈ s.rows, strip (empCell s r) ≠ strip name) →
        receiptsFor s name = []) := by
  constructor
  · unfold receiptsFor matchingRows specReceiptsFor
    induction s.rows with
    | nil => rfl
    | cons r l ih =>
      by_cases h : strip (empCell s r) = strip name
      · simp only [List.filter_cons, List.foldr_cons, h]
        simp [ih]
      · simp only [List.filter_cons, List.foldr_cons, h]
        simp [ih, h]
  · intro h
    unfold receiptsFor matchingRows
    have : s.rows.filter (fun r => strip (empCell s r) == strip name) = [] := by
      rw [List.filter_eq_nil_iff]
      intro r hr
      simp [h r hr]
    rw [this, List.map_nil]

theorem receiptsFor_row_order_witness :
    receiptsFor sheetA "Bob" = [] :=
  (receiptsFor_row_order sheetA "Bob").2 (by decide)

/-- Claim C4: after every completed batch run, the success counter never
exceeds the number of certificates in the work list, and equals the number
of output-file writes performed during the run. -/
theorem summary_counts (env : Env) :
    (mergePdfsLogic env).processed ≤ (certPdfs env).length ∧
    (mergePdfsLogic env).processed = (mergePdfsLogic env).writes.length := by
  cases hload : env.load with
  | notFound => unfold mergePdfsLogic; rw [hload]; simp
  | readError e => unfold mergePdfsLogic; rw [hload]; simp
  | ok sheet =>
    by_cases hs : schemaOk sheet
    · rw [mergePdfsLogic_ok env sheet hload hs]
      constructor
      · have h1 : ∀ x ∈ (certPdfs env).map
            (fun f => (certWrites env sheet f).length), x ≤ 1 := by
          intro x hx
          obtain ⟨f, _, rfl⟩ := List.mem_map.1 hx
          exact certWrites_length_le env sheet f
        have h2 := sum_le_length _ h1
        simpa using h2
      · exact (flatten_writes_length env sheet (certPdfs env)).symm
    · unfold mergePdfsLogic
      rw [hload]
      simp [hs]

/-- Claim C5: a certificate whose trimmed person name has no row in the
index yields exactly a warning, no output write, and no success increment,
while the final summary still counts every work-list certificate in its
denominator. -/
theorem no_mapping_skip (env : Env) (sheet : Sheet) (st : BatchState)
    (f : String)
    (h : receiptsFor sheet (splitextBase f) = []) :
    (processCert env sheet st f).events =
      st.events ++ [Event.infoProcessing (splitextBase f),
        Event.warnNoMapping (splitextBase f)] ∧
    (processCert env sheet st f).writes = st.writes ∧
    (processCert env sheet st f).processed = st.processed ∧
    (env.load = LoadResult.ok sheet → schemaOk sheet = true →
      (mergePdfsLogic env).events.getLast? =
        some (Event.infoSummary (mergePdfsLogic env).processed
          (certPdfs env).length)) := by
  refine ⟨?_, ?_, ?_, ?_⟩
  · rw [processCert_eq]
    unfold certEvents
    simp [h]
  · rw [processCert_eq]
    unfold certWrites
    simp [h]
  · rw [processCert_eq]
    unfold certWrites
    simp [h]
  · intro hload hschema
    rw [mergePdfsLogic_ok env sheet hload hschema]
    exact List.getLast?_concat _

theorem no_mapping_skip_witness :
    (processCert envA sheetA { events := [], writes := [], processed := 0 }
        "Carol.pdf").events =
      [Event.infoProcessing "Carol", Event.warnNoMapping "Carol"] ∧
    (processCert envA sheetA { events := [], writes := [], processed := 0 }
        "Carol.pdf").writes = [] ∧
    (processCert envA sheetA { events := [], writes := [], processed := 0 }
        "Carol.pdf").processed = 0 ∧
    (envA.load = LoadResult.ok sheetA → schemaOk sheetA = true →
      (mergePdfsLogic envA).events.getLast? =
        some (Event.infoSummary (mergePdfsLogic envA).processed
          (certPdfs envA).length)) :=
  no_mapping_skip envA sheetA { events := [], writes := [], processed := 0 }
    "Carol.pdf" (by decide)

/-- Claim C6: if either required header is absent from the trimmed headers,
the run terminates with a schema error event naming both required headers
and the headers actually found, and processes zero certificates (no
per-certificate event, no write, zero succeeded). -/
theorem schema_error_terminal (env : Env) (sheet : Sheet)
    (hload : env.load = LoadResult.ok sheet)
    (hbad : employeeColName ∉ trimmedHeaders sheet ∨
      challanColName ∉ trimmedHeaders sheet) :
    mergePdfsLogic env =
      { events := [Event.infoStart,
          Event.errorSchema employeeColName challanColName
            (trimmedHeaders sheet)],
        writes := [], processed := 0 } := by
  have hs : ¬ schemaOk sheet = true := by
    unfold schemaOk
    rcases hbad with h | h <;> simp [h]
  unfold mergePdfsLogic
  rw [hload]
  simp [hs]

theorem schema_error_terminal_witness :
    mergePdfsLogic envBad =
      { events := [Event.infoStart,
          Event.errorSchema employeeColName challanColName
            (trimmedHeaders sheetBad)],
        writes := [], processed := 0 } :=
  schema_error_terminal envBad sheetBad rfl (Or.inr (by decide))

/-- Claim C2: for a person with mapping rows, when no append or write
fails, the combined document written is the certificate followed by exactly
the found receipts in index order (missing receipts excluded), it goes to
outputDirectory/personName_combined.pdf as a single write, and it is the
content visible at that path afterwards, overwriting any earlier write. -/
theorem combined_output (env : Env) (sheet : Sheet) (st : BatchState)
    (f : String)
    (hne : receiptsFor sheet (splitextBase f) ≠ [])
    (hcert : env.certAppendErr (joinPath env.certDir f) = none)
    (happ : ∀ p, env.challanAppendErr p = none)
    (hw : env.writeErr
      (joinPath env.outputDir (splitextBase f ++ "_combined.pdf")) = none) :
    (processCert env sheet st f).writes = st.writes ++
      [(joinPath env.outputDir (splitextBase f ++ "_combined.pdf"),
        joinPath env.certDir f ::
          ((receiptsFor sheet (splitextBase f)).filter
            (fun c => env.challanFiles.contains (challanFilename c))).map
            (fun c => joinPath env.challanDir (challanFilename c)))] ∧
    finalContent (processCert env sheet st f).writes
      (joinPath env.outputDir (splitextBase f ++ "_combined.pdf")) =
      some (joinPath env.certDir f ::
        ((receiptsFor sheet (splitextBase f)).filter
          (fun c => env.challanFiles.contains (challanFilename c))).map
          (fun c => joinPath env.challanDir (challanFilename c))) := by
  have hwrites : (processCert env sheet st f).writes = st.writes ++
      [(joinPath env.outputDir (splitextBase f ++ "_combined.pdf"),
        joinPath env.certDir f ::
          ((receiptsFor sheet (splitextBase f)).filter
            (fun c => env.challanFiles.contains (challanFilename c))).map
            (fun c => joinPath env.challanDir (challanFilename c)))] := by
    rw [processCert_eq]
    simp only [certWrites_of_success env sheet f hne hcert hw,
      challanDocs_flatten env _ happ]
  exact ⟨hwrites, by rw [hwrites]; exact finalContent_append_write _ _ _⟩

theorem combined_output_witness :
    (processCert envA sheetA { events := [], writes := [], processed := 0 }
        "Alice.pdf").writes =
      [("o/Alice_combined.pdf", ["c/Alice.pdf", "r/101.pdf"])] ∧
    finalContent
      (processCert envA sheetA { events := [], writes := [], processed := 0 }
        "Alice.pdf").writes
      (joinPath envA.outputDir (splitextBase "Alice.pdf" ++ "_combined.pdf")) =
      some ["c/Alice.pdf", "r/101.pdf"] := by
  have h := combined_output envA sheetA
    { events := [], writes := [], processed := 0 } "Alice.pdf"
    (by decide) rfl (fun _ => rfl) rfl
  exact ⟨by rw [h.1]; decide, by rw [h.2]; decide⟩

/-- Claim C3: for a person with mapping rows none of whose receipt files
exist, the run still writes an output containing only the certificate,
emits exactly one missing-file warning per absent receipt id (naming the
expected receipt path), and counts the person as succeeded. -/
theorem all_receipts_missing (env : Env) (sheet : Sheet) (st : BatchState)
    (f : String)
    (hne : receiptsFor sheet (splitextBase f) ≠ [])
    (hmiss : ∀ c ∈ receiptsFor sheet (splitextBase f),
      challanFilename c ∉ env.challanFiles)
    (hcert : env.certAppendErr (joinPath env.certDir f) = none)
    (hw : env.writeErr
      (joinPath env.outputDir (splitextBase f ++ "_combined.pdf")) = none) :
    (processCert env sheet st f).events = st.events ++
      Event.infoProcessing (splitextBase f) :: Event.infoAddedCert f ::
        ((receiptsFor sheet (splitextBase f)).map (fun c =>
          Event.warnChallanMissing
            (joinPath env.challanDir (challanFilename c))) ++
        [Event.infoCreated
          (joinPath env.outputDir (splitextBase f ++ "_combined.pdf"))]) ∧
    (processCert env sheet st f).writes = st.writes ++
      [(joinPath env.outputDir (splitextBase f ++ "_combined.pdf"),
        [joinPath env.certDir f])] ∧
    (processCert env sheet st f).processed = st.processed + 1 := by
  refine ⟨?_, ?_, ?_⟩
  · rw [processCert_eq]
    rw [certEvents_of_success env sheet f hne hcert hw,
      challanEvents_all_missing env _ hmiss]
    simp
  · rw [processCert_eq]
    rw [certWrites_of_success env sheet f hne hcert hw,
      challanDocs_all_missing env _ hmiss]
  · rw [processCert_eq]
    rw [certWrites_of_success env sheet f hne hcert hw]
    rfl

theorem all_receipts_missing_witness :
    (processCert envB sheetA { events := [], writes := [], processed := 0 }
        "Alice.pdf").events =
      [Event.infoProcessing "Alice", Event.infoAddedCert "Alice.pdf",
        Event.warnChallanMissing "r/101.pdf",
        Event.infoCreated "o/Alice_combined.pdf"] ∧
    (processCert envB sheetA { events := [], writes := [], processed := 0 }
        "Alice.pdf").writes =
      [("o/Alice_combined.pdf", ["c/Alice.pdf"])] ∧
    (processCert envB sheetA { events := [], writes := [], processed := 0 }
        "Alice.pdf").processed = 1 := by
  have h := all_receipts_missing envB sheetA
    { events := [], writes := [], processed := 0 } "Alice.pdf"
    (by decide) (by decide) rfl rfl
  exact ⟨by rw [h.1]; decide, by rw [h.2.1]; decide, h.2.2⟩

theorem mem_batch_events (env : Env) (sheet : Sheet)
    (hload : env.load = LoadResult.ok sheet)
    (hschema : schemaOk sheet = true)
    (f : String) (hf : f ∈ certPdfs env)
    (e : Event) (he : e ∈ certEvents env sheet f) :
    e ∈ (mergePdfsLogic env).events := by
  rw [mergePdfsLogic_ok env sheet hload hschema]
  simp only [List.mem_append]
  left; right
  exact List.mem_flatten.2
    ⟨certEvents env sheet f, List.mem_map_of_mem _ hf, he⟩

/-- Claim C7: once the spreadsheet has loaded with a valid schema, every
work-list certificate is processed and the summary is the last event
emitted, whatever the per-person failures; a failure while appending the
certificate or writing the combined file is reported as an error event
naming the person and the underlying error, and never stops the batch. -/
theorem per_person_isolation (env : Env) (sheet : Sheet)
    (hload : env.load = LoadResult.ok sheet)
    (hschema : schemaOk sheet = true) :
    (∀ f ∈ certPdfs env,
      Event.infoProcessing (splitextBase f) ∈ (mergePdfsLogic env).events) ∧
    (mergePdfsLogic env).events.getLast? =
      some (Event.infoSummary (mergePdfsLogic env).processed
        (certPdfs env).length) ∧
    (∀ f ∈ certPdfs env, ∀ e,
      receiptsFor sheet (splitextBase f) ≠ [] →
      env.certAppendErr (joinPath env.certDir f) = some e →
      Event.errorPerson (splitextBase f) e ∈ (mergePdfsLogic env).events) ∧
    (∀ f ∈ certPdfs env, ∀ e,
      receiptsFor sheet (splitextBase f) ≠ [] →
      env.certAppendErr (joinPath env.certDir f) = none →
      env.writeErr (joinPath env.outputDir
        (splitextBase f ++ "_combined.pdf")) = some e →
      Event.errorPerson (splitextBase f) e ∈ (mergePdfsLogic env).events) := by
  refine ⟨?_, ?_, ?_, ?_⟩
  · intro f hf
    exact mem_batch_events env sheet hload hschema f hf _ (by simp [certEvents])
  · rw [mergePdfsLogic_ok env sheet hload hschema]
    exact List.getLast?_concat _
  · intro f hf e hne herr
    refine mem_batch_events env sheet hload hschema f hf _ ?_
    simp [certEvents, hne, herr]
  · intro f hf e hne hcert hwe
    refine mem_batch_events env sheet hload hschema f hf _ ?_
    simp [certEvents, hne, hcert, hwe]

/-- Like `envA` but every certificate append raises. -/
def envErr : Env :=
  { envA with certAppendErr := fun _ => some "boom" }

theorem per_person_isolation_witness :
    Event.errorPerson "Alice" "boom" ∈ (mergePdfsLogic envErr).events ∧
    (mergePdfsLogic envErr).events.getLast? =
      some (Event.infoSummary (mergePdfsLogic envErr).processed
        (certPdfs envErr).length) := by
  have h := per_person_isolation envErr sheetA rfl (by decide)
  exact ⟨h.2.2.1 "Alice.pdf" (by decide) "boom" (by decide) rfl, h.2.1⟩

theorem finalContent_self_append (ws : List (String × List String))
    (p : String) :
    finalContent (ws ++ ws) p = finalContent ws p := by
  unfold finalContent
  rw [List.filter_append]
  rcases h : ws.filter (fun w => w.1 == p) with _ | ⟨x, l⟩
  · simp
  · rw [h, List.getLast?_append_of_ne_nil _ (by simp)]

/-- Claim C8: a second run over unchanged inputs is the same pure function
of the same environment, so it overwrites each output path with identical
content (the file contents after two runs equal those after one), and each
run's summary reports only that run's own write count, with no
accumulation. -/
theorem batch_idempotent (env : Env) :
    (∀ p, finalContent
        ((mergePdfsLogic env).writes ++ (mergePdfsLogic env).writes) p =
      finalContent (mergePdfsLogic env).writes p) ∧
    (∀ sheet, env.load = LoadResult.ok sheet → schemaOk sheet = true →
      (mergePdfsLogic env).events.getLast? =
        some (Event.infoSummary (mergePdfsLogic env).writes.length
          (certPdfs env).length)) := by
  constructor
  · intro p
    exact finalContent_self_append _ p
  · intro sheet hload hschema
    have hw : (mergePdfsLogic env).writes.length =
        ((certPdfs env).map (fun f => (certWrites env sheet f).length)).sum := by
      rw [mergePdfsLogic_ok env sheet hload hschema]
      exact flatten_writes_length env sheet (certPdfs env)
    rw [hw, mergePdfsLogic_ok env sheet hload hschema]
    exact List.getLast?_concat _

theorem batch_idempotent_witness :
    finalContent
      ((mergePdfsLogic envA).writes ++ (mergePdfsLogic envA).writes)
      "o/Alice_combined.pdf" =
      finalContent (mergePdfsLogic envA).writes "o/Alice_combined.pdf" ∧
    (mergePdfsLogic envA).events.getLast? =
      some (Event.infoSummary (mergePdfsLogic envA).writes.length
        (certPdfs envA).length) :=
  ⟨(batch_idempotent envA).1 "o/Alice_combined.pdf",
   (batch_idempotent envA).2 sheetA rfl (by decide)⟩

/-- Claim C9: a mapping row whose receipt id strips to the empty string is
never rejected or filtered: the empty id reaches the lookup result, the
built filename is the literal `.pdf`, and when the challan directory holds
a file named `.pdf` it is appended into the person's combined document. -/
theorem blank_id_literal (env : Env) (sheet : Sheet) (st : BatchState)
    (f : String) (r : List String)
    (hr : r ∈ sheet.rows)
    (hmatch : strip (empCell sheet r) = strip (splitextBase f))
    (hblank : strip (chCell sheet r) = "")
    (hpresent : ".pdf" ∈ env.challanFiles)
    (hcert : env.certAppendErr (joinPath env.certDir f) = none)
    (happ : ∀ p, env.challanAppendErr p = none)
    (hw : env.writeErr (joinPath env.outputDir
      (splitextBase f ++ "_combined.pdf")) = none) :
    challanFilename "" = ".pdf" ∧
    "" ∈ receiptsFor sheet (splitextBase f) ∧
    joinPath env.challanDir ".pdf" ∈
      ((processCert env sheet st f).writes.map Prod.snd).flatten := by
  have hmem : "" ∈ receiptsFor sheet (splitextBase f) := by
    unfold receiptsFor matchingRows
    refine List.mem_map.2 ⟨r, ?_, hblank⟩
    exact List.mem_filter.2 ⟨hr, by simp [hmatch]⟩
  have hne : receiptsFor sheet (splitextBase f) ≠ [] :=
    List.ne_nil_of_mem hmem
  have hfn : challanFilename "" = ".pdf" := by decide
  refine ⟨hfn, hmem, ?_⟩
  rw [processCert_eq]
  rw [certWrites_of_success env sheet f hne hcert hw]
  have hdoc : joinPath env.challanDir ".pdf" ∈
      ((receiptsFor sheet (splitextBase f)).map (challanDocs env)).flatten := by
    refine List.mem_flatten.2
      ⟨challanDocs env "", List.mem_map_of_mem _ hmem, ?_⟩
    simp [challanDocs, hfn, hpresent, happ]
  simp only [List.map_append, List.flatten_append]
  refine List.mem_append.2 (Or.inr ?_)
  simp [hdoc]

/-- A sheet whose only row has a whitespace-only challan id. -/
def sheetBlank : Sheet :=
  { headers := ["Employee Name", "Challan Number"],
    rows := [["Alice", " "]] }

/-- An environment whose challan directory holds a file literally named
`.pdf`. -/
def envBlank : Env :=
  { certDir := "c", challanDir := "r", outputDir := "o",
    load := LoadResult.ok sheetBlank,
    certListing := ["Alice.pdf"],
    challanFiles := [".pdf"],
    certAppendErr := fun _ => none,
    challanAppendErr := fun _ => none,
    writeErr := fun _ => none }

theorem blank_id_literal_witness :
    challanFilename "" = ".pdf" ∧
    "" ∈ receiptsFor sheetBlank (splitextBase "Alice.pdf") ∧
    joinPath envBlank.challanDir ".pdf" ∈
      ((processCert envBlank sheetBlank
        { events := [], writes := [], processed := 0 }
        "Alice.pdf").writes.map Prod.snd).flatten :=
  blank_id_literal envBlank sheetBlank
    { events := [], writes := [], processed := 0 } "Alice.pdf"
    ["Alice", " "] (by decide) (by decide) (by decide) (by decide)
    rfl (fun _ => rfl) rfl

/-- Two certificate files differing only in extension case, both mapping
to the person of `sheetA`, with no challan files present. -/
def envC : Env :=
  { certDir := "c", challanDir := "r", outputDir := "o",
    load := LoadResult.ok sheetA,
    certListing := ["Alice.pdf", "Alice.PDF"],
    challanFiles := [],
    certAppendErr := fun _ => none,
    challanAppendErr := fun _ => none,
    writeErr := fun _ => none }

/-- Claim C10: two certificates with the same derived base name write to
the same output path; in the concrete run `envC` both are processed (two
processing events, two writes, two successes), the writes collapse to one
distinct output path, the later-enumerated certificate's content wins, and
so succeeded (2) exceeds the count of distinct output files present (1). -/
theorem same_base_overwrite (env : Env) (f1 f2 : String)
    (hbase : splitextBase f1 = splitextBase f2) :
    joinPath env.outputDir (splitextBase f1 ++ "_combined.pdf") =
      joinPath env.outputDir (splitextBase f2 ++ "_combined.pdf") ∧
    (mergePdfsLogic envC).events.count (Event.infoProcessing "Alice") = 2 ∧
    (mergePdfsLogic envC).processed = 2 ∧
    (mergePdfsLogic envC).writes.length = 2 ∧
    ((mergePdfsLogic envC).writes.map Prod.fst).dedup =
      ["o/Alice_combined.pdf"] ∧
    finalContent (mergePdfsLogic envC).writes "o/Alice_combined.pdf" =
      some ["c/Alice.PDF"] := by
  refine ⟨by rw [hbase], ?_, ?_, ?_, ?_, ?_⟩ <;> decide

theorem same_base_overwrite_witness :
    joinPath envC.outputDir (splitextBase "Alice.pdf" ++ "_combined.pdf") =
      joinPath envC.outputDir (splitextBase "Alice.PDF" ++ "_combined.pdf") ∧
    (mergePdfsLogic envC).events.count (Event.infoProcessing "Alice") = 2 ∧
    (mergePdfsLogic envC).processed = 2 ∧
    (mergePdfsLogic envC).writes.length = 2 ∧
    ((mergePdfsLogic envC).writes.map Prod.fst).dedup =
      ["o/Alice_combined.pdf"] ∧
    finalContent (mergePdfsLogic envC).writes "o/Alice_combined.pdf" =
      some ["c/Alice.PDF"] :=
  same_base_overwrite envC "Alice.pdf" "Alice.PDF" (by decide)
